import Mathlib

/-!
Verification of the express-requesthandler binding layer.

The source (src/lib/index.ts) contains two variants of the decorator:

* Variant 1 (lines 1-120): `request(type, middleware?)`; the per-request
  closure searches `res.locals`, then `req.query`, `req.body`, `req.headers`
  (implicit search, header key lower-cased), coercing into a local variable.
  Registration throws when the class has no static `router`.
* Variant 2 (lines 122-265): `request(type, paramsType, middleware?)`; the
  closure reads a single configured source `req[paramsType]` and writes the
  coerced value back into it.  Registration lazily creates the router.

JavaScript values are modelled by `JsVal`, restricted to the integer fragment
of JS numbers (query/body/header data in the claims is integral); dates carry
their epoch-millisecond timestamp (`none` = Invalid Date).
-/

inductive JsVal where
  | str (s : String)
  | num (n : Int)
  | bool (b : Bool)
  | arr (elems : List JsVal)
  | obj (fields : List (String × JsVal))
  | oid (hex : String)
  | date (time : Option Int)
  | undef
  | reqObj
  | resObj

/-- Declared parameter types: the closed set the decorator switches on
(`String`, `Number`, `Boolean`, `ObjectID`, `Date`, `Array`), plus `PAny`
for any other / absent `design:paramtypes` entry (no coercion). -/
inductive PType where
  | PString | PNumber | PBoolean | PObjectID | PDate | PArray | PAny
deriving Repr, DecidableEq

/-- One extracted argument: `{ key, type }` in the source. -/
structure Arg where
  key : String
  type : PType
deriving Repr, DecidableEq

/-- A JS property bag (`req.query`, `req.body`, `req.headers`, `res.locals`),
modelled as an association list; lookup takes the first binding. -/
abbrev Params := List (String × JsVal)

def lookupKey (ps : Params) (k : String) : Option JsVal :=
  match ps with
  | [] => none
  | p :: rest => if p.1 = k then some p.2 else lookupKey rest k

/-- Membership test, modelling the JS `in` operator on a property bag. -/
def hasKey (ps : Params) (k : String) : Bool :=
  (lookupKey ps k).isSome

/-- Property assignment `ps[k] = v` for a key already present (the code only
assigns to keys it found via `in`); absent keys are left untouched. -/
def setKey (ps : Params) (k : String) (v : JsVal) : Params :=
  ps.map (fun p => if p.1 = k then (k, v) else p)

def trimChars (cs : List Char) : List Char :=
  ((cs.dropWhile Char.isWhitespace).reverse.dropWhile Char.isWhitespace).reverse

def digitsToNat (cs : List Char) : Nat :=
  cs.foldl (fun a c => 10 * a + (c.toNat - 48)) 0

/-- An optionally-signed decimal integer literal, or `none`. -/
def parseIntChars (cs : List Char) : Option Int :=
  match cs with
  | [] => none
  | c :: rest =>
    if c = '-' then
      if rest ≠ [] && rest.all Char.isDigit then some (-(digitsToNat rest : Int))
      else none
    else if (c :: rest).all Char.isDigit then some (digitsToNat (c :: rest) : Int)
    else none

/-- Split at every separator character, keeping empty pieces (the semantics
of JS `String.prototype.split` with a single-character class). -/
def splitChars (p : Char → Bool) : List Char → List Char → List (List Char)
  | [], acc => [acc.reverse]
  | c :: rest, acc =>
    if p c then acc.reverse :: splitChars p rest []
    else splitChars p rest (c :: acc)

def splitStr (s : String) (p : Char → Bool) : List String :=
  (splitChars p s.toList []).map String.mk

/-- JS `String.prototype.toLowerCase` on the ASCII fragment. -/
def lowerStr (s : String) : String :=
  String.mk (s.toList.map Char.toLower)

/-- Models JS `Number(string)` on the integer fragment: a trimmed empty
string is `0`, an optionally-signed decimal literal is its value, anything
else is NaN (`none`).  Fractional, hex and exponent literals are outside the
modelled fragment. -/
def parseNumberStr (s : String) : Option Int :=
  let t := trimChars s.toList
  if t = [] then some 0 else parseIntChars t

/-- Models JS `ToNumber` on the modelled value fragment (`none` = NaN):
strings via `parseNumberStr`, booleans to 0/1, `[]` to 0, a one-element
array to the number of its element, dates to their timestamp; objects,
undefined and multi-element arrays are NaN. -/
def toNumber : JsVal → Option Int
  | .str s => parseNumberStr s
  | .num n => some n
  | .bool b => some (if b then 1 else 0)
  | .arr [] => some 0
  | .arr [.str s] => parseNumberStr s
  | .arr [.num n] => some n
  | .date t => t
  | _ => none

/-- Models the loose equality `param == 1` used by the `Boolean` case:
for the modelled fragment it coincides with `ToNumber(param) = 1`. -/
def looseEqOne (v : JsVal) : Bool :=
  toNumber v == some 1

def isHexDigit (c : Char) : Bool :=
  c.isDigit || ('a' ≤ c && c ≤ 'f') || ('A' ≤ c && c ≤ 'F')

/-- Models `ObjectID.isValid` on the modelled fragment: a 24-hex-character
string, or an existing ObjectID value. -/
def oidValid : JsVal → Bool
  | .str s => s.length = 24 && s.toList.all isHexDigit
  | .oid _ => true
  | _ => false

def allDigits (s : String) : Bool :=
  s ≠ "" && s.toList.all Char.isDigit

def natOfDigits (s : String) : Nat :=
  s.toList.foldl (fun a c => 10 * a + (c.toNat - 48)) 0

/-- Cumulative days before month `m` (1-based) in a non-leap year. -/
def daysBeforeMonth (m : Nat) : Nat :=
  [0, 31, 59, 90, 120, 151, 181, 212, 243, 273, 304, 334].getD (m - 1) 0

def isLeap (y : Nat) : Bool :=
  (y % 4 = 0 && y % 100 ≠ 0) || y % 400 = 0

def daysInMonth (y m : Nat) : Nat :=
  if m = 2 then (if isLeap y then 29 else 28)
  else if [1, 3, 5, 7, 8, 10, 12].contains m then 31 else 30

/-- Models `new Date(string)` parsing on the ISO fragment "YYYY-MM-DD"
(UTC, years 1970-2099): returns the epoch-millisecond timestamp, `none` for
anything the fragment rejects (JS would also produce an Invalid Date for
malformed ISO strings). -/
def isoDateMs (s : String) : Option Int :=
  match splitStr s (· = '-') with
  | [ys, ms, ds] =>
    if allDigits ys && allDigits ms && allDigits ds
        && ys.length = 4 && ms.length = 2 && ds.length = 2 then
      let y := natOfDigits ys
      let m := natOfDigits ms
      let d := natOfDigits ds
      if 1970 ≤ y && y ≤ 2099 && 1 ≤ m && m ≤ 12 && 1 ≤ d && d ≤ daysInMonth y m then
        let leaps := (y - 1) / 4 - (y - 1) / 100 + (y - 1) / 400 - 477
        let days := (y - 1970) * 365 + leaps + daysBeforeMonth m
          + (if 2 < m && isLeap y then 1 else 0) + (d - 1)
        some (days * 86400000)
      else none
    else none
  | _ => none

/-- Models `new Date(param).getTime()` (`none` = NaN, i.e. Invalid Date):
numbers are timestamps, strings go through ISO parsing, an existing date is
copied. -/
def dateTimeOf : JsVal → Option Int
  | .num n => some n
  | .str s => isoDateMs s
  | .date t => t
  | _ => none

/-- Models `JSON.parse` on the fragment the claims exercise: an integer
literal, or a flat array of integer literals such as "[1,2]"; other JSON
texts (nested arrays, strings, objects) are outside the fragment and map to
`none` (parse failure). -/
def jsonParseFrag (s : String) : Option JsVal :=
  match trimChars s.toList with
  | '[' :: rest =>
    if rest.getLast? = some ']' then
      let inner := rest.dropLast
      if trimChars inner = [] then some (.arr [])
      else
        let pieces := (splitChars (· = ',') inner []).map
          (fun p => parseIntChars (trimChars p))
        if pieces.all Option.isSome then
          some (.arr (pieces.map (fun o => .num (o.getD 0))))
        else none
    else none
  | t => (parseIntChars t).map .num

def isStrVal : JsVal → Bool
  | .str _ => true
  | _ => false

def isArrVal : JsVal → Bool
  | .arr _ => true
  | _ => false

/-- Variant 1 coercion: the `switch (arg.type)` at lines 47-83, producing the
coerced value or the assertion message; messages interpolate `arg.key`. -/
def coerce1 (key : String) (t : PType) (param : JsVal) : Except String JsVal :=
  match t with
  | .PString =>
    if isStrVal param then .ok param
    else .error ("Parameter " ++ key ++ " should be a string")
  | .PNumber =>
    match toNumber param with
    | some n => .ok (.num n)
    | none => .error ("Parameter " ++ key ++ " should be a number")
  | .PBoolean => .ok (.bool (looseEqOne param))
  | .PObjectID =>
    if oidValid param then
      .ok (match param with
        | .str s => .oid s
        | .oid s => .oid s
        | _ => .oid "")
    else .error ("Parameter " ++ key ++ " should be an ObjectID")
  | .PDate =>
    match dateTimeOf param with
    | some ms => .ok (.date (some ms))
    | none => .error ("Parameter " ++ key ++ " should be a Date")
  | .PArray =>
    let p := if isStrVal param then
        (match param with
          | .str s => (jsonParseFrag s).getD (.str "")
          | _ => param)
      else param
    if isArrVal p then .ok p
    else .error ("Parameter " ++ key ++ " should be an array")
  | .PAny => .ok param

/-- The incoming request's data sources for variant 1 (implicit search). -/
structure Req1 where
  query : Params
  body : Params
  headers : Params

/-- Variant 1 per-parameter resolution: the body of the `for (const arg of
args)` loop (lines 29-92).  Returns the pushed value together with the
`isRes` flag (`true` exactly when the reserved name `res` was bound, which
sets `respond = false` in the source). -/
def bindArg1 (locals : Params) (req : Req1) (method : String) (arg : Arg) :
    Except String (JsVal × Bool) :=
  if arg.key = "req" then .ok (.reqObj, false)
  else if arg.key = "res" then .ok (.resObj, true)
  else if hasKey locals arg.key then
    .ok ((lookupKey locals arg.key).getD .undef, false)
  else if hasKey req.query arg.key || hasKey req.body arg.key
      || hasKey req.headers (lowerStr arg.key) then
    let param :=
      if hasKey req.query arg.key then (lookupKey req.query arg.key).getD .undef
      else if hasKey req.body arg.key then (lookupKey req.body arg.key).getD .undef
      else (lookupKey req.headers (lowerStr arg.key)).getD .undef
    (coerce1 arg.key arg.type param).map (fun v => (v, false))
  else .error ("Parameter " ++ arg.key ++ " is missing in " ++ method)

/-- Variant 1 resolution loop: resolves every argument in declaration order,
stopping at the first failure (the `catch` block returns from the closure).
Returns the argument values and the final `respond` flag. -/
def resolveLoop1 (locals : Params) (req : Req1) (method : String) :
    List Arg → Except String (List JsVal × Bool)
  | [] => .ok ([], true)
  | a :: rest =>
    match bindArg1 locals req method a with
    | .error e => .error e
    | .ok (v, isRes) =>
      match resolveLoop1 locals req method rest with
      | .error e => .error e
      | .ok (vs, resp) => .ok (v :: vs, resp && !isRes)

/-- What the closure wrote to the response stream. -/
inductive Sent where
  | noWrite
  | jsonWrite (status : Nat) (body : JsVal)
  | rawWrite (chunk : String)

/-- Outcome of a handler invocation: the resolved value, or the rejection.
A rejection carries the JS error's optional `status` property and its
message; `err.toString()` of an `Error` is "Error: " ++ message. -/
inductive HResult where
  | ok (v : JsVal)
  | err (status : Option Nat) (message : String)

def errBody (msg : String) : JsVal :=
  .obj [("error", .str msg)]

/-- Models `JSON.stringify({ error: msg })` for messages without characters
needing escapes (true of every message the code produces here). -/
def stringifyErr (msg : String) : String :=
  "\x7b\"error\":\"" ++ msg ++ "\"\x7d"

/-- The rejection branch of `result.then` (lines 110-117): always
`res.status(500).json(...)`; if that throws (headers already sent) the same
payload is written as a raw chunk and the stream ended.  Note the branch
ignores both the `respond` flag and any `status` property of the error. -/
def errorWrite (headersSent : Bool) (message : String) : Sent :=
  if headersSent then .rawWrite (stringifyErr ("Error: " ++ message))
  else .jsonWrite 500 (errBody ("Error: " ++ message))

/-- Everything observable after the variant 1 closure and its `result.then`
continuation have run for one request. -/
structure Outcome1 where
  sent : Sent
  localsAfter : Params
  nextCalled : Bool
  invoked : Option (List JsVal)
  reqAfter : Req1

/-- The variant 1 request-handling closure (lines 24-118): resolve all
arguments (fail-fast 400 on the first failure), invoke the handler with the
resolved values, then route the settled result: suppressed when `res` was
bound, stored whole in `res.locals[middleware]` plus `next()` when a
middleware key is configured, otherwise `res.json(result)` (status 200);
rejections go through `errorWrite`.  `headersSent` is the response-stream
state when the result settles. -/
def handleRequest1 (args : List Arg) (middleware : Option String) (method : String)
    (handler : List JsVal → HResult) (headersSent : Bool)
    (req : Req1) (locals : Params) : Outcome1 :=
  match resolveLoop1 locals req method args with
  | .error msg =>
    { sent := .jsonWrite 400 (errBody msg), localsAfter := locals,
      nextCalled := false, invoked := none, reqAfter := req }
  | .ok (vals, respond) =>
    match handler vals with
    | .ok doc =>
      if respond then
        match middleware with
        | some m =>
          { sent := .noWrite, localsAfter := (m, doc) :: locals,
            nextCalled := true, invoked := some vals, reqAfter := req }
        | none =>
          { sent := .jsonWrite 200 doc, localsAfter := locals,
            nextCalled := false, invoked := some vals, reqAfter := req }
      else
        { sent := .noWrite, localsAfter := locals,
          nextCalled := false, invoked := some vals, reqAfter := req }
    | .err _ message =>
      { sent := errorWrite headersSent message, localsAfter := locals,
        nextCalled := false, invoked := some vals, reqAfter := req }

/-- JS template interpolation of the `arg` object itself: variant 2's
assertion messages read `Parameter \x24\x7barg\x7d should be ...`, and
stringifying the plain object `\x7bkey, type\x7d` yields this text. -/
def argInterp : String := "[object Object]"

/-- Variant 2 coercion: the `switch (arg.type)` at lines 192-228.  Returns
the assertion result together with the value held by `params[arg.key]`
after the attempt (the `Date` and `Array` cases assign before asserting, so
a failed attempt can leave a mutated value behind).  Messages interpolate
the whole `arg` object, not `arg.key`. -/
def coerce2 (t : PType) (param : JsVal) : Except String JsVal × JsVal :=
  match t with
  | .PString =>
    (if isStrVal param then .ok param
     else .error ("Parameter " ++ argInterp ++ " should be a string"), param)
  | .PNumber =>
    (match toNumber param with
     | some n => (.ok (.num n), .num n)
     | none => (.error ("Parameter " ++ argInterp ++ " should be a number"), param))
  | .PBoolean =>
    ((.ok (.bool (looseEqOne param)), .bool (looseEqOne param)))
  | .PObjectID =>
    (if oidValid param then
      (let w : JsVal := match param with
        | .str s => .oid s
        | .oid s => .oid s
        | _ => .oid ""
      (.ok w, w))
     else (.error ("Parameter " ++ argInterp ++ " should be an ObjectID"), param))
  | .PDate =>
    (match dateTimeOf param with
     | some ms => (.ok (.date (some ms)), .date (some ms))
     | none => (.error ("Parameter " ++ argInterp ++ " should be a Date"), .date none))
  | .PArray =>
    let p := match param with
      | .str s => (jsonParseFrag s).getD (.str "")
      | _ => param
    (if isArrVal p then .ok p
     else .error ("Parameter " ++ argInterp ++ " should be an array"), p)
  | .PAny => (.ok param, param)

/-- Variant 2 per-parameter resolution (loop body, lines 176-239): returns
the pushed value and `isRes` flag, or the failure message, together with the
state of `params` after the step (coercion assigns `params[arg.key]`). -/
def bindArg2 (locals : Params) (params : Params) (method : String) (arg : Arg) :
    Except String (JsVal × Bool) × Params :=
  if arg.key = "req" then (.ok (.reqObj, false), params)
  else if arg.key = "res" then (.ok (.resObj, true), params)
  else if hasKey locals arg.key then
    (.ok ((lookupKey locals arg.key).getD .undef, false), params)
  else if hasKey params arg.key then
    let v := (lookupKey params arg.key).getD .undef
    let c := coerce2 arg.type v
    let params' := setKey params arg.key c.2
    match c.1 with
    | .ok _ => (.ok (c.2, false), params')
    | .error e => (.error e, params')
  else (.error ("Parameter " ++ arg.key ++ " is missing in " ++ method), params)

/-- Variant 2 resolution loop, threading the mutable `params` bag. -/
def resolveLoop2 (locals : Params) (method : String) :
    List Arg → Params → Except String (List JsVal × Bool) × Params
  | [], params => (.ok ([], true), params)
  | a :: rest, params =>
    match bindArg2 locals params method a with
    | (.error e, params') => (.error e, params')
    | (.ok (v, isRes), params') =>
      match resolveLoop2 locals method rest params' with
      | (.error e, params'') => (.error e, params'')
      | (.ok (vs, resp), params'') => (.ok (v :: vs, resp && !isRes), params'')

/-- The configured parameter source of variant 2 (`ParamsType`). -/
inductive ParamsKind where
  | query | body | headers
deriving Repr, DecidableEq

/-- The incoming request's data sources for variant 2. -/
structure Req2 where
  query : Params
  body : Params
  headers : Params

def getSource (req : Req2) : ParamsKind → Params
  | .query => req.query
  | .body => req.body
  | .headers => req.headers

def putSource (req : Req2) (pk : ParamsKind) (ps : Params) : Req2 :=
  match pk with
  | .query => { req with query := ps }
  | .body => { req with body := ps }
  | .headers => { req with headers := ps }

/-- Everything observable after the variant 2 closure and its `result.then`
continuation have run for one request. -/
structure Outcome2 where
  sent : Sent
  localsAfter : Params
  nextCalled : Bool
  invoked : Option (List JsVal)
  reqAfter : Req2

/-- The variant 2 request-handling closure (lines 168-263): reads the single
configured source `req[paramsType]`, resolves all arguments against it
(mutating it in place), then dispatches exactly as variant 1 does. -/
def handleRequest2 (args : List Arg) (pk : ParamsKind) (middleware : Option String)
    (method : String) (handler : List JsVal → HResult) (headersSent : Bool)
    (req : Req2) (locals : Params) : Outcome2 :=
  match resolveLoop2 locals method args (getSource req pk) with
  | (.error msg, params') =>
    { sent := .jsonWrite 400 (errBody msg), localsAfter := locals,
      nextCalled := false, invoked := none, reqAfter := putSource req pk params' }
  | (.ok (vals, respond), params') =>
    let req' := putSource req pk params'
    match handler vals with
    | .ok doc =>
      if respond then
        match middleware with
        | some m =>
          { sent := .noWrite, localsAfter := (m, doc) :: locals,
            nextCalled := true, invoked := some vals, reqAfter := req' }
        | none =>
          { sent := .jsonWrite 200 doc, localsAfter := locals,
            nextCalled := false, invoked := some vals, reqAfter := req' }
      else
        { sent := .noWrite, localsAfter := locals,
          nextCalled := false, invoked := some vals, reqAfter := req' }
    | .err _ message =>
      { sent := errorWrite headersSent message, localsAfter := locals,
        nextCalled := false, invoked := some vals, reqAfter := req' }

/-- JS `String.prototype.indexOf` for a single character: first index, or
-1 when absent. -/
def jsIndexOf (s : String) (c : Char) : Int :=
  match s.toList.indexOf? c with
  | some i => (i : Int)
  | none => -1

/-- JS `String.prototype.lastIndexOf` for a single character. -/
def jsLastIndexOf (s : String) (c : Char) : Int :=
  match s.toList.reverse.indexOf? c with
  | some i => (s.length : Int) - 1 - (i : Int)
  | none => -1

/-- JS `String.prototype.slice` with its negative-index and clamping
semantics. -/
def jsSlice (s : String) (a b : Int) : String :=
  let len : Int := s.length
  let norm : Int → Nat := fun x =>
    (if x < 0 then max (len + x) 0 else min x len).toNat
  String.mk (((s.toList).drop (norm a)).take (norm b - norm a))

/-- JS `str.match(/[^\s,]+/g)`: the maximal runs of characters that are
neither whitespace nor commas, or `null` (`none`) when there is no match
(the zero-parameter case). -/
def jsMatchTokens (s : String) : Option (List String) :=
  let toks := ((splitChars (fun c => c = ',' || c.isWhitespace) s.toList []).filter
    (· ≠ [])).map String.mk
  if toks.isEmpty then none else some toks

/-- `argKeys.map((key, i) => (\x7b key, type: argTypes[i] \x7d))`: pair each
extracted name with the `design:paramtypes` entry at the same position (an
absent entry is `undefined`, hence no coercion). -/
def mkArgs (keys : List String) (types : List PType) : List Arg :=
  keys.enum.map (fun p => { key := p.2, type := types.getD p.1 .PAny })

/-- Variant 1 argument-name extraction (lines 17-20): slice the function's
source text from after the first "(" to the first ")" and match the
token regex; `none` models `match` returning `null`. -/
def extractKeys1 (fstr : String) : Option (List String) :=
  jsMatchTokens (jsSlice fstr (jsIndexOf fstr '(' + 1) (jsIndexOf fstr ')'))

/-- Variant 2 `functionParameters` (lines 143-152): same, but slicing up to
the LAST ")" of the whole function text. -/
def extractKeys2 (fstr : String) : Option (List String) :=
  jsMatchTokens (jsSlice fstr (jsIndexOf fstr '(' + 1) (jsLastIndexOf fstr ')'))

/-- The message of the TypeError raised when variant code calls `.map` on a
`null` match result (the `!` assertion was wrong). -/
def nullMapError : String := "Cannot read properties of null (reading 'map')"

/-- Variant 1 registration (decorator body, lines 11-23): throws when the
owning class has no static `router`, otherwise extracts the argument list
(a zero-parameter handler makes the regex match `null` and `.map` throw). -/
def register1 (routerPresent : Bool) (fstr : String) (types : List PType) :
    Except String (List Arg) :=
  if routerPresent then
    match extractKeys1 fstr with
    | some keys => .ok (mkArgs keys types)
    | none => .error nullMapError
  else .error "The class should have a static router variable"

/-- Result of variant 2 registration: whether the class ends up with a
router, and the extracted argument list (or the raised error). -/
structure Reg2 where
  routerAfter : Bool
  result : Except String (List Arg)

/-- Variant 2 registration (decorator body, lines 155-167): lazily creates
the router when absent (never throws for a missing router), extracts the
arguments, and lower-cases every key when the source is the header set. -/
def register2 (_routerPresent : Bool) (fstr : String) (types : List PType)
    (pk : ParamsKind) : Reg2 :=
  { routerAfter := true
    result :=
      match extractKeys2 fstr with
      | some keys =>
        let args := mkArgs keys types
        .ok (if pk = ParamsKind.headers
          then args.map (fun a => { key := lowerStr a.key, type := a.type })
          else args)
      | none => .error nullMapError }

/-- `digitsToNat` with an explicit accumulator, for reasoning about the
digit strings `Nat.repr` produces. -/
def digitsFold (a : Nat) (cs : List Char) : Nat :=
  cs.foldl (fun a c => 10 * a + (c.toNat - 48)) a

/-- Number of decimal digits of `n` (at least 1). -/
def decLen (n : Nat) : Nat :=
  if h : n < 10 then 1 else decLen (n / 10) + 1
decreasing_by exact Nat.div_lt_self (by omega) (by omega)

lemma digitChar_toNat_sub (d : Nat) (h : d < 10) : (Nat.digitChar d).toNat - 48 = d := by
  interval_cases d <;> rfl

lemma digitChar_isDigit (d : Nat) (h : d < 10) : (Nat.digitChar d).isDigit = true := by
  interval_cases d <;> rfl

lemma digitsFold_cons (a : Nat) (c : Char) (cs : List Char) :
    digitsFold a (c :: cs) = digitsFold (10 * a + (c.toNat - 48)) cs := rfl

lemma decLen_of_lt (n : Nat) (h : n < 10) : decLen n = 1 := by
  rw [decLen]; simp [h]

lemma decLen_of_ge (n : Nat) (h : ¬ n < 10) : decLen n = decLen (n / 10) + 1 := by
  rw [decLen]; simp [h]

lemma toDigitsCore_foldl :
    ∀ (fuel n a : Nat) (ds : List Char), n < fuel →
      digitsFold a (Nat.toDigitsCore 10 fuel n ds)
        = digitsFold (a * 10 ^ decLen n + n) ds := by
  intro fuel
  induction fuel with
  | zero => intro n a ds h; omega
  | succ fuel ih =>
    intro n a ds h
    simp only [Nat.toDigitsCore]
    by_cases h10 : n / 10 = 0
    · have hn : n < 10 := by omega
      simp only [h10, if_pos rfl, reduceIte]
      rw [digitsFold_cons, digitChar_toNat_sub (n % 10) (by omega),
        decLen_of_lt n hn]
      have : n % 10 = n := Nat.mod_eq_of_lt hn
      rw [this, pow_one]
      ring_nf
    · have hge : 10 ≤ n := by omega
      have hlt : n / 10 < fuel := by omega
      simp only [h10, if_neg, reduceIte]
      rw [ih (n / 10) a (Nat.digitChar (n % 10) :: ds) hlt,
        digitsFold_cons, digitChar_toNat_sub (n % 10) (by omega),
        decLen_of_ge n (by omega)]
      congr 1
      rw [pow_succ, ← mul_assoc]
      set p := a * 10 ^ decLen (n / 10) with hp
      omega

lemma toDigitsCore_all_digits :
    ∀ (fuel n : Nat) (ds : List Char), (∀ c ∈ ds, c.isDigit = true) →
      ∀ c ∈ Nat.toDigitsCore 10 fuel n ds, c.isDigit = true := by
  intro fuel
  induction fuel with
  | zero => intro n ds h; simpa [Nat.toDigitsCore] using h
  | succ fuel ih =>
    intro n ds h
    simp only [Nat.toDigitsCore]
    by_cases h10 : n / 10 = 0
    · simp only [h10, reduceIte]
      intro c hc
      rcases List.mem_cons.mp hc with h1 | h1
      · subst h1; exact digitChar_isDigit (n % 10) (by omega)
      · exact h c h1
    · simp only [h10, reduceIte]
      apply ih
      intro c hc
      rcases List.mem_cons.mp hc with h1 | h1
      · subst h1; exact digitChar_isDigit (n % 10) (by omega)
      · exact h c h1

lemma toDigitsCore_ne_nil :
    ∀ (fuel n : Nat) (ds : List Char), ds ≠ [] →
      Nat.toDigitsCore 10 fuel n ds ≠ [] := by
  intro fuel
  induction fuel with
  | zero => intro n ds h; simpa [Nat.toDigitsCore] using h
  | succ fuel ih =>
    intro n ds h
    simp only [Nat.toDigitsCore]
    by_cases h10 : n / 10 = 0
    · simp [h10]
    · simp only [h10, reduceIte]
      exact ih (n / 10) _ (by simp)

lemma toDigits_ne_nil (n : Nat) : Nat.toDigits 10 n ≠ [] := by
  simp only [Nat.toDigits, Nat.toDigitsCore]
  by_cases h10 : n / 10 = 0
  · simp [h10]
  · simp only [h10, reduceIte]
    exact toDigitsCore_ne_nil n (n / 10) _ (by simp)

lemma toDigits_all_digits (n : Nat) : ∀ c ∈ Nat.toDigits 10 n, c.isDigit = true := by
  exact toDigitsCore_all_digits (n + 1) n [] (by simp)

lemma digitsToNat_toDigits (n : Nat) : digitsToNat (Nat.toDigits 10 n) = n := by
  have h := toDigitsCore_foldl (n + 1) n 0 [] (Nat.lt_succ_self n)
  simpa [Nat.toDigits, digitsToNat, digitsFold] using h

lemma isDigit_not_ws (c : Char) (h : c.isDigit = true) : c.isWhitespace = false := by
  by_contra hw
  have hw' : c.isWhitespace = true := by
    cases hx : c.isWhitespace
    · exact absurd hx hw
    · rfl
  simp [Char.isWhitespace] at hw'
  have h4 : c = ' ' ∨ c = '\t' ∨ c = '\r' ∨ c = '\n' := by tauto
  rcases h4 with h1 | h1 | h1 | h1 <;> subst h1 <;> exact absurd h (by decide)

lemma dropWhile_ws_of_digits (cs : List Char) (h : ∀ c ∈ cs, c.isDigit = true) :
    cs.dropWhile Char.isWhitespace = cs := by
  cases cs with
  | nil => rfl
  | cons c rest =>
    rw [List.dropWhile_cons, isDigit_not_ws c (h c (by simp))]
    simp

lemma trimChars_of_digits (cs : List Char) (h : ∀ c ∈ cs, c.isDigit = true) :
    trimChars cs = cs := by
  unfold trimChars
  rw [dropWhile_ws_of_digits cs h,
    dropWhile_ws_of_digits cs.reverse (fun c hc => h c (List.mem_reverse.mp hc)),
    List.reverse_reverse]

lemma parseIntChars_digits (cs : List Char) (h1 : cs ≠ [])
    (h2 : ∀ c ∈ cs, c.isDigit = true) :
    parseIntChars cs = some (digitsToNat cs : Int) := by
  match cs with
  | [] => exact absurd rfl h1
  | c :: rest =>
    have hc : c.isDigit = true := h2 c (by simp)
    have hne : ¬ c = '-' := by
      intro e; subst e; exact absurd hc (by decide)
    simp only [parseIntChars]
    rw [if_neg hne, if_pos]
    simpa using h2

lemma parseNumberStr_repr (n : Nat) : parseNumberStr (Nat.repr n) = some (n : Int) := by
  have hds : ∀ c ∈ Nat.toDigits 10 n, c.isDigit = true := toDigits_all_digits n
  have hne : Nat.toDigits 10 n ≠ [] := toDigits_ne_nil n
  have hl : (Nat.repr n).toList = Nat.toDigits 10 n := rfl
  unfold parseNumberStr
  rw [hl, trimChars_of_digits _ hds, if_neg hne,
    parseIntChars_digits _ hne hds, digitsToNat_toDigits]

/-- C1 counterexample: under variant 2 with the BODY source configured, a
parameter present only in the query is answered "missing" with a 400 and the
handler is never invoked — the claimed query→body→headers search does not
happen for the explicit-source variant. -/
theorem C1_counterexample :
    (handleRequest2 [⟨"p", .PString⟩] .body none "m" (fun _ => .ok .undef) false
        ⟨[("p", .str "v")], [], []⟩ []).sent
      = .jsonWrite 400 (errBody "Parameter p is missing in m")
    ∧ (handleRequest2 [⟨"p", .PString⟩] .body none "m" (fun _ => .ok .undef) false
        ⟨[("p", .str "v")], [], []⟩ []).invoked = none :=
  ⟨rfl, rfl⟩

lemma putSource_getSource (req : Req2) (pk : ParamsKind) :
    putSource req pk (getSource req pk) = req := by
  cases pk <;> rfl

/-- C1 as amended: for every parameter, both variants first apply the same
reserved precedence — `req` binds the raw request, `res` binds the raw
response, and a name present in `res.locals` binds that context value as-is
with no coercion.  Beyond that, only variant 1 searches query, then body,
then headers in that order (lower-cased header key), coercing only a value
found there; variant 2 consults solely the configured source
`req[paramsType]`, coercing a value found there and reporting the parameter
missing otherwise, even when the name is present in another source. -/
theorem C1_amended :
    (∀ (locals : Params) (req : Req1) (method : String) (arg : Arg),
      bindArg1 locals req method arg =
        if arg.key = "req" then .ok (.reqObj, false)
        else if arg.key = "res" then .ok (.resObj, true)
        else
          match lookupKey locals arg.key with
          | some v => .ok (v, false)
          | none =>
            match lookupKey req.query arg.key with
            | some v => (coerce1 arg.key arg.type v).map (fun w => (w, false))
            | none =>
              match lookupKey req.body arg.key with
              | some v => (coerce1 arg.key arg.type v).map (fun w => (w, false))
              | none =>
                match lookupKey req.headers (lowerStr arg.key) with
                | some v => (coerce1 arg.key arg.type v).map (fun w => (w, false))
                | none => .error ("Parameter " ++ arg.key ++ " is missing in " ++ method))
    ∧ (∀ (locals params : Params) (method : String) (arg : Arg),
        (arg.key = "req" → bindArg2 locals params method arg = (.ok (.reqObj, false), params))
        ∧ (arg.key = "res" → bindArg2 locals params method arg = (.ok (.resObj, true), params))
        ∧ (∀ v, ¬ arg.key = "req" → ¬ arg.key = "res" →
            lookupKey locals arg.key = some v →
            bindArg2 locals params method arg = (.ok (v, false), params))
        ∧ (∀ v, ¬ arg.key = "req" → ¬ arg.key = "res" →
            lookupKey locals arg.key = none → lookupKey params arg.key = some v →
            bindArg2 locals params method arg
              = ((coerce2 arg.type v).1.map (fun _ => ((coerce2 arg.type v).2, false)),
                 setKey params arg.key (coerce2 arg.type v).2)))
    ∧ (∀ (locals : Params) (method k : String) (t : PType) (pk : ParamsKind)
        (req2 : Req2) (mw : Option String) (handler : List JsVal → HResult) (hs : Bool),
        ¬ k = "req" → ¬ k = "res" → lookupKey locals k = none →
        lookupKey (getSource req2 pk) k = none →
        handleRequest2 [⟨k, t⟩] pk mw method handler hs req2 locals
          = { sent := .jsonWrite 400 (errBody ("Parameter " ++ k ++ " is missing in " ++ method)),
              localsAfter := locals, nextCalled := false, invoked := none,
              reqAfter := req2 }) := by
  refine ⟨?_, ?_, ?_⟩
  · intro locals req method arg
    unfold bindArg1 hasKey
    by_cases h1 : arg.key = "req"
    · simp [h1]
    by_cases h2 : arg.key = "res"
    · simp [h1, h2]
    cases hl : lookupKey locals arg.key <;>
      cases hq : lookupKey req.query arg.key <;>
      cases hb : lookupKey req.body arg.key <;>
      cases hh : lookupKey req.headers (lowerStr arg.key) <;>
      simp [h1, h2, hl, hq, hb, hh]
  · intro locals params method arg
    refine ⟨fun h1 => ?_, fun h2 => ?_, fun v h1 h2 hl => ?_, fun v h1 h2 hl hp => ?_⟩
    · unfold bindArg2
      simp [h1]
    · unfold bindArg2
      by_cases h1 : arg.key = "req"
      · rw [h1] at h2; exact absurd h2 (by decide)
      · simp [h1, h2]
    · unfold bindArg2 hasKey
      simp [h1, h2, hl]
    · unfold bindArg2 hasKey
      simp only [if_neg h1, if_neg h2, hl, Option.isSome_none, Bool.false_eq_true,
        reduceIte, hp, Option.isSome_some, Option.getD_some]
      cases hc : (coerce2 arg.type v).1 <;> simp [hc, Except.map]
  · intro locals method k t pk req2 mw handler hs h1 h2 hl hp
    have hb : bindArg2 locals (getSource req2 pk) method ⟨k, t⟩
        = (.error ("Parameter " ++ k ++ " is missing in " ++ method), getSource req2 pk) := by
      unfold bindArg2 hasKey
      simp [h1, h2, hl, hp]
    unfold handleRequest2
    simp only [resolveLoop2, hb, putSource_getSource]

/-- Witness for C1 as amended: under variant 2, `req` binds the raw request,
a context value shadows the configured source, and a body-routed parameter
present only in the query is reported missing. -/
theorem C1_witness :
    bindArg2 [] [("user", .str "u")] "m" ⟨"req", .PAny⟩
      = (.ok (.reqObj, false), [("user", .str "u")])
    ∧ bindArg2 [("user", .str "u")] [("user", .str "q")] "m" ⟨"user", .PString⟩
      = (.ok (.str "u", false), [("user", .str "q")])
    ∧ handleRequest2 [⟨"p", .PString⟩] .body none "m" (fun _ => .ok .undef) false
        ⟨[("p", .str "v")], [], []⟩ []
      = { sent := .jsonWrite 400 (errBody "Parameter p is missing in m"),
          localsAfter := [], nextCalled := false, invoked := none,
          reqAfter := ⟨[("p", .str "v")], [], []⟩ } := by
  refine ⟨(C1_amended.2.1 [] [("user", .str "u")] "m" ⟨"req", .PAny⟩).1 rfl,
    (C1_amended.2.1 [("user", .str "u")] [("user", .str "q")] "m" ⟨"user", .PString⟩).2.2.1
      (.str "u") (by decide) (by decide) rfl,
    C1_amended.2.2 [] "m" "p" .PString .body ⟨[("p", .str "v")], [], []⟩ none
      (fun _ => .ok .undef) false (by decide) (by decide) rfl rfl⟩

/-- C2: on the scenario query `param1="a"`, `param2="x"` with declared types
(string, number), both variants respond 400 without dispatching the handler,
but only variant 1 produces the claimed body naming `param2`; variant 2's
assertion message interpolates the whole `arg` object, yielding
"[object Object]" where the parameter name belongs (the code slip the claim
exposes). -/
theorem C2_validation_failure :
    (handleRequest1 [⟨"param1", .PString⟩, ⟨"param2", .PNumber⟩] none "someRoute1"
        (fun _ => .ok (.str "done")) false
        ⟨[("param1", .str "a"), ("param2", .str "x")], [], []⟩ []).sent
      = .jsonWrite 400 (errBody "Parameter param2 should be a number")
    ∧ (handleRequest1 [⟨"param1", .PString⟩, ⟨"param2", .PNumber⟩] none "someRoute1"
        (fun _ => .ok (.str "done")) false
        ⟨[("param1", .str "a"), ("param2", .str "x")], [], []⟩ []).invoked = none
    ∧ (handleRequest2 [⟨"param1", .PString⟩, ⟨"param2", .PNumber⟩] .query none "someRoute1"
        (fun _ => .ok (.str "done")) false
        ⟨[("param1", .str "a"), ("param2", .str "x")], [], []⟩ []).sent
      = .jsonWrite 400 (errBody "Parameter [object Object] should be a number")
    ∧ (handleRequest2 [⟨"param1", .PString⟩, ⟨"param2", .PNumber⟩] .query none "someRoute1"
        (fun _ => .ok (.str "done")) false
        ⟨[("param1", .str "a"), ("param2", .str "x")], [], []⟩ []).invoked = none :=
  ⟨rfl, rfl, rfl, rfl⟩

/-- C3: when a non-reserved parameter that is not in the shared context is
absent from query, body and headers, the response is 400 with a body naming
the parameter and the handler method, the handler is never invoked, and the
failure is independent of every later parameter (fail-fast). -/
theorem C3_missing_parameter (locals : Params) (req : Req1) (method : String)
    (a : Arg) (rest : List Arg) (middleware : Option String)
    (handler : List JsVal → HResult) (hs : Bool)
    (hreq : ¬ a.key = "req") (hres : ¬ a.key = "res")
    (h3 : lookupKey locals a.key = none)
    (h4 : lookupKey req.query a.key = none)
    (h5 : lookupKey req.body a.key = none)
    (h6 : lookupKey req.headers (lowerStr a.key) = none) :
    handleRequest1 (a :: rest) middleware method handler hs req locals =
      { sent := .jsonWrite 400 (errBody ("Parameter " ++ a.key ++ " is missing in " ++ method)),
        localsAfter := locals, nextCalled := false, invoked := none, reqAfter := req } := by
  have hb : bindArg1 locals req method a
      = .error ("Parameter " ++ a.key ++ " is missing in " ++ method) := by
    unfold bindArg1 hasKey
    simp [hreq, hres, h3, h4, h5, h6]
  simp only [handleRequest1, resolveLoop1, hb]

/-- Witness for C3 at a concrete request: `user` is missing, the later
(itself unresolvable) parameter `x` is never reached. -/
theorem C3_witness :
    handleRequest1 [⟨"user", .PString⟩, ⟨"x", .PNumber⟩] none "someRoute"
        (fun _ => .ok .undef) false ⟨[("a", .str "1")], [], []⟩ []
      = { sent := .jsonWrite 400 (errBody "Parameter user is missing in someRoute"),
          localsAfter := [], nextCalled := false, invoked := none,
          reqAfter := ⟨[("a", .str "1")], [], []⟩ } := by
  exact C3_missing_parameter [] ⟨[("a", .str "1")], [], []⟩ "someRoute" ⟨"user", .PString⟩
    [⟨"x", .PNumber⟩] none (fun _ => .ok .undef) false (by decide) (by decide) rfl rfl rfl rfl

/-- C4 counterexample: a handler rejecting with `status: 404`,
`message: "not found"` is answered with status 500 and body
`\x7b"error": "Error: not found"\x7d` (the `toString` of the Error), not
the 404 / plain-message response the claim predicts. -/
theorem C4_counterexample :
    (handleRequest1 [] none "m" (fun _ => .err (some 404) "not found") false
        ⟨[], [], []⟩ []).sent
      = .jsonWrite 500 (errBody "Error: not found")
    ∧ (handleRequest1 [] none "m" (fun _ => .err (some 404) "not found") false
        ⟨[], [], []⟩ []).sent
      ≠ .jsonWrite 404 (errBody "not found") := by
  refine ⟨rfl, fun h => ?_⟩
  rw [show (handleRequest1 [] none "m" (fun _ => .err (some 404) "not found") false
      ⟨[], [], []⟩ []).sent = .jsonWrite 500 (errBody "Error: not found") from rfl] at h
  injection h with h1 h2
  exact absurd h1 (by decide)

/-- C4 as amended: when a handler's invocation throws or rejects, the
response status is always 500 — any status carried by the failure is
ignored — and the body is the string form of the error. -/
theorem C4_amended (st : Option Nat) (message : String) (middleware : Option String)
    (method : String) (req : Req1) (locals : Params) :
    (handleRequest1 [] middleware method (fun _ => .err st message) false req locals).sent
      = .jsonWrite 500 (errBody ("Error: " ++ message)) := rfl

/-- C5 counterexample: with no middleware key configured (the claim's "merge
mode"), a successful result `\x7b user: "u1" \x7d` is NOT merged into the
context: the context is unchanged, `next()` is not called, and the result is
written as the JSON response instead. -/
theorem C5_counterexample :
    (handleRequest1 [] none "mw" (fun _ => .ok (.obj [("user", .str "u1")])) false
        ⟨[], [], []⟩ []).localsAfter = []
    ∧ (handleRequest1 [] none "mw" (fun _ => .ok (.obj [("user", .str "u1")])) false
        ⟨[], [], []⟩ []).nextCalled = false
    ∧ (handleRequest1 [] none "mw" (fun _ => .ok (.obj [("user", .str "u1")])) false
        ⟨[], [], []⟩ []).sent = .jsonWrite 200 (.obj [("user", .str "u1")]) :=
  ⟨rfl, rfl, rfl⟩

/-- C5 as amended: when a middleware key `m` IS configured, the whole result
is stored under `res.locals[m]`, `next()` is invoked and nothing is written;
and a later handler's parameter named `m` then resolves to that stored value
as-is, without consulting query, body or headers. -/
theorem C5_amended (m : String) (doc : JsVal) (method : String)
    (req : Req1) (locals : Params) (t : PType)
    (hm1 : ¬ m = "req") (hm2 : ¬ m = "res") :
    ((handleRequest1 [] (some m) method (fun _ => .ok doc) false req locals).sent = .noWrite
      ∧ (handleRequest1 [] (some m) method (fun _ => .ok doc) false req locals).nextCalled = true
      ∧ (handleRequest1 [] (some m) method (fun _ => .ok doc) false req locals).localsAfter
          = (m, doc) :: locals)
    ∧ bindArg1 ((m, doc) :: locals) req method ⟨m, t⟩ = .ok (doc, false) := by
  refine ⟨⟨rfl, rfl, rfl⟩, ?_⟩
  unfold bindArg1 hasKey lookupKey
  simp [hm1, hm2]

/-- Witness for C5 as amended: the middleware stores `u1` under `user`, and
a later route's `user` parameter resolves to `u1` even though the query
carries a different `user` value. -/
theorem C5_witness :
    ((handleRequest1 [] (some "user") "mw" (fun _ => .ok (.str "u1")) false
        ⟨[], [], []⟩ []).localsAfter = [("user", .str "u1")])
    ∧ bindArg1 [("user", .str "u1")] ⟨[("user", .str "q")], [], []⟩ "later" ⟨"user", .PString⟩
        = .ok (.str "u1", false) := by
  have h := C5_amended "user" (.str "u1") "mw" ⟨[], [], []⟩ [] .PString
    (by decide) (by decide)
  have h2 := C5_amended "user" (.str "u1") "later" ⟨[("user", .str "q")], [], []⟩ [] .PString
    (by decide) (by decide)
  exact ⟨h.1.2.2, h2.2⟩

/-- C6: round-trip of encoded values — every natural number's decimal string
resolves back to that number under the `Number` coercion, the boolean
encodings "1"/"0" resolve to true/false, "42" resolves to 42, and the JSON
array string "[1,2]" resolves to the array [1,2]. -/
theorem C6_roundtrip :
    (∀ n : Nat, coerce1 "p" .PNumber (.str (toString n)) = .ok (.num n))
    ∧ (∀ b : Bool, coerce1 "p" .PBoolean (.str (if b then "1" else "0")) = .ok (.bool b))
    ∧ coerce1 "p" .PNumber (.str "42") = .ok (.num 42)
    ∧ coerce1 "p" .PArray (.str "[1,2]") = .ok (.arr [.num 1, .num 2]) := by
  refine ⟨fun n => ?_, fun b => ?_, rfl, rfl⟩
  · have ht : toString n = Nat.repr n := rfl
    simp only [coerce1, toNumber, ht, parseNumberStr_repr]
  · cases b <;> rfl

/-- C7 counterexample: with a `res` parameter bound, a failing handler still
triggers the automatic error write — the rejection branch never consults the
`respond` flag, so error writing is NOT suppressed. -/
theorem C7_counterexample :
    (handleRequest1 [⟨"res", .PAny⟩] none "m" (fun _ => .err none "boom") false
        ⟨[], [], []⟩ []).sent
      = .jsonWrite 500 (errBody "Error: boom")
    ∧ (handleRequest1 [⟨"res", .PAny⟩] none "m" (fun _ => .err none "boom") false
        ⟨[], [], []⟩ []).sent ≠ .noWrite := by
  refine ⟨rfl, fun h => ?_⟩
  rw [show (handleRequest1 [⟨"res", .PAny⟩] none "m" (fun _ => .err none "boom") false
      ⟨[], [], []⟩ []).sent = .jsonWrite 500 (errBody "Error: boom") from rfl] at h
  exact Sent.noConfusion h

/-- C7 as amended: declaring `res` suppresses the automatic JSON write on
success (nothing is written and the middleware continuation is skipped even
for a non-undefined result), but on failure the automatic error write still
runs. -/
theorem C7_amended (doc : JsVal) (st : Option Nat) (msg : String)
    (middleware : Option String) (method : String) (req : Req1) (locals : Params)
    (t : PType) (hs : Bool) :
    ((handleRequest1 [⟨"res", t⟩] middleware method (fun _ => .ok doc) hs req locals).sent
        = .noWrite
      ∧ (handleRequest1 [⟨"res", t⟩] middleware method (fun _ => .ok doc) hs req locals).nextCalled
        = false)
    ∧ (handleRequest1 [⟨"res", t⟩] middleware method (fun _ => .err st msg) hs req locals).sent
        = errorWrite hs msg :=
  ⟨⟨rfl, rfl⟩, rfl⟩

/-- C8 counterexample: variant 2 decoration on a scope with no router does
not fail — it lazily creates the router and registration completes. -/
theorem C8_counterexample :
    (register2 false "someRoute1(param1, param2) \x7b \x7d" [.PString, .PNumber] .query).routerAfter
      = true
    ∧ (register2 false "someRoute1(param1, param2) \x7b \x7d" [.PString, .PNumber] .query).result
      = .ok [⟨"param1", .PString⟩, ⟨"param2", .PNumber⟩] :=
  ⟨rfl, rfl⟩

/-- C8 as amended: variant 1 throws synchronously at class-definition time
when the owning scope lacks the router slot; variant 2 never fails for a
missing router — it creates the routing table lazily at registration. -/
theorem C8_amended (fstr : String) (types : List PType) (pk : ParamsKind) (b : Bool) :
    register1 false fstr types = .error "The class should have a static router variable"
    ∧ (register2 b fstr types pk).routerAfter = true :=
  ⟨rfl, rfl⟩

/-- C9 counterexample: registering a zero-parameter handler does NOT succeed
with an empty binding list — the argument regex `match` returns `null` and
the non-null assertion makes `.map` throw a TypeError, in both variants. -/
theorem C9_counterexample :
    register1 true "f() \x7b \x7d" [] = .error nullMapError
    ∧ (register2 true "f() \x7b \x7d" [] .query).result = .error nullMapError :=
  ⟨rfl, rfl⟩

/-- C9 as amended: whenever variant 1 argument extraction succeeds,
registration succeeds with the extracted bindings, and the binding list is
never empty — extraction only accepts callables with at least one formal
parameter token. -/
theorem C9_amended (fstr : String) (types : List PType) (ks : List String)
    (h : extractKeys1 fstr = some ks) :
    register1 true fstr types = .ok (mkArgs ks types) ∧ ¬ ks = [] := by
  constructor
  · unfold register1
    rw [h]
    simp
  · intro he
    subst he
    unfold extractKeys1 jsMatchTokens at h
    set toks := ((splitChars (fun c => c = ',' || c.isWhitespace)
      (jsSlice fstr (jsIndexOf fstr '(' + 1) (jsIndexOf fstr ')')).toList []).filter
      (· ≠ [])).map String.mk with ht
    by_cases hc : toks.isEmpty
    · simp [hc] at h
    · simp [hc] at h
      exact absurd h.symm (by simpa using hc)

/-- Witness for C9 as amended at a one-parameter handler. -/
theorem C9_witness :
    register1 true "f(a) \x7b \x7d" [] = .ok (mkArgs ["a"] []) ∧ ¬ (["a"] : List String) = [] :=
  C9_amended "f(a) \x7b \x7d" [] ["a"] rfl

lemma getSource_putSource (req : Req2) (pk : ParamsKind) (ps : Params) :
    getSource (putSource req pk ps) pk = ps := by
  cases pk <;> rfl

lemma lookupKey_setKey_present (ps : Params) (k : String) (v w : JsVal)
    (h : lookupKey ps k = some v) : lookupKey (setKey ps k w) k = some w := by
  induction ps with
  | nil => simp [lookupKey] at h
  | cons p rest ih =>
    by_cases hp : p.1 = k
    · simp [setKey, lookupKey, hp]
    · simp only [setKey, List.map_cons, if_neg hp] at *
      simp only [lookupKey, if_neg hp] at h ⊢
      exact ih h

/-- C10: in the explicit-source variant, successfully coercing a parameter
writes the coerced value back into `req[paramsType]` (the source bag of the
request itself afterwards holds the coerced value under the parameter's
name); in the implicit-search variant the request's query, body and headers
are never modified. -/
theorem C10_explicit_source_mutation
    (locals : Params) (method : String) (k : String) (t : PType) (v w : JsVal)
    (pk : ParamsKind) (req2 : Req2) (mw : Option String)
    (handler : List JsVal → HResult) (hs : Bool)
    (h1 : ¬ k = "req") (h2 : ¬ k = "res") (h3 : lookupKey locals k = none)
    (h4 : lookupKey (getSource req2 pk) k = some v)
    (h5 : coerce2 t v = (.ok w, w)) :
    (getSource (handleRequest2 [⟨k, t⟩] pk mw method handler hs req2 locals).reqAfter pk
        = setKey (getSource req2 pk) k w
      ∧ lookupKey
          (getSource (handleRequest2 [⟨k, t⟩] pk mw method handler hs req2 locals).reqAfter pk) k
        = some w)
    ∧ ∀ (args : List Arg) (mw1 : Option String) (meth : String)
        (hdl : List JsVal → HResult) (hs1 : Bool) (req1 : Req1) (l1 : Params),
        (handleRequest1 args mw1 meth hdl hs1 req1 l1).reqAfter = req1 := by
  have hb : bindArg2 locals (getSource req2 pk) method ⟨k, t⟩
      = (.ok (w, false), setKey (getSource req2 pk) k w) := by
    unfold bindArg2 hasKey
    simp [h1, h2, h3, h4, h5]
  have hloop : resolveLoop2 locals method [⟨k, t⟩] (getSource req2 pk)
      = (.ok ([w], true), setKey (getSource req2 pk) k w) := by
    simp [resolveLoop2, hb]
  have hreq' : (handleRequest2 [⟨k, t⟩] pk mw method handler hs req2 locals).reqAfter
      = putSource req2 pk (setKey (getSource req2 pk) k w) := by
    unfold handleRequest2
    rw [hloop]
    repeat' split
    all_goals simp_all
  refine ⟨⟨?_, ?_⟩, ?_⟩
  · rw [hreq', getSource_putSource]
  · rw [hreq', getSource_putSource]
    exact lookupKey_setKey_present _ _ _ _ h4
  · intro args mw1 meth hdl hs1 req1 l1
    unfold handleRequest1
    repeat' split
    all_goals rfl

/-- Witness for C10: the raw query string "42" is replaced in the request's
query bag by the coerced number 42. -/
theorem C10_witness :
    getSource ((handleRequest2 [⟨"p", .PNumber⟩] .query none "m"
        (fun _ => .ok .undef) false ⟨[("p", .str "42")], [], []⟩ []).reqAfter) .query
      = [("p", (.num 42 : JsVal))] := by
  have h := C10_explicit_source_mutation [] "m" "p" .PNumber (.str "42") (.num 42)
      .query ⟨[("p", .str "42")], [], []⟩ none (fun _ => .ok .undef) false
      (by decide) (by decide) rfl rfl rfl
  exact h.1.1.trans rfl
